import Mathlib

/-!
Verification of the consensus-aggregation and vector-search core of the
`fins` repository. The Python services in `src/services/data_service.py`,
`src/services/vector_service.py` and the schema in `src/database/models.py`
are shallowly embedded below; numeric values are idealised as `ℚ`/`ℝ`,
dates as `ℕ` (ordinal days), and the catch-all exception handlers of the
Python code are modelled by the explicit fallback branches noted inline.
-/

namespace Fins

/-- The three-way rating taxonomy from `models.RatingEnum`. -/
inductive RatingEnum
  | buy
  | hold
  | sell
deriving DecidableEq, Repr

/-- `listStartsWith hay needle` is true when `needle` is a prefix of `hay`
(the primitive underlying Python's substring test). -/
def listStartsWith : List Char → List Char → Bool
  | _, [] => true
  | [], _ :: _ => false
  | c :: cs, d :: ds => c == d && listStartsWith cs ds

/-- `containsSub hay needle` models Python's `needle in hay` (contiguous
substring containment). -/
def containsSub : List Char → List Char → Bool
  | [], needle => needle.isEmpty
  | c :: cs, needle => listStartsWith (c :: cs) needle || containsSub cs needle

/-- Python's `str.lower`, restricted to the ASCII mapping (the keyword
alphabet below is ASCII plus Korean, which `lower` leaves unchanged). -/
def pyLower (s : List Char) : List Char := s.map Char.toLower

/-- The buy-family keywords of `DataCollectionService.normalize_rating`. -/
def buyKeywords : List (List Char) :=
  ["buy".toList, "매수".toList, "strong buy".toList, "적극매수".toList]

/-- The sell-family keywords of `DataCollectionService.normalize_rating`. -/
def sellKeywords : List (List Char) :=
  ["sell".toList, "매도".toList, "strong sell".toList, "적극매도".toList]

/-- Python's `any(keyword in s for keyword in kws)`. -/
def containsAnyKeyword (s : List Char) (kws : List (List Char)) : Bool :=
  kws.any (fun kw => containsSub s kw)

/-- `DataCollectionService.normalize_rating` (data_service.py:38-52). -/
def normalize_rating (rating_raw : List Char) : RatingEnum :=
  let rating_lower := pyLower rating_raw
  if containsAnyKeyword rating_lower buyKeywords then RatingEnum.buy
  else if containsAnyKeyword rating_lower sellKeywords then RatingEnum.sell
  else RatingEnum.hold

end Fins

namespace Fins

/-- A row of the `consensus_reports` table (models.py:25-44).  Prices are
idealised as `ℚ`, report dates as ordinal day numbers `ℕ`. -/
structure Report where
  id : ℕ
  stock_code : String
  security_firm : String
  rating_raw : List Char
  rating_norm : RatingEnum
  target_price : ℚ
  report_date : ℕ
deriving DecidableEq, Repr

/-- The `rating_counts` dictionary of `get_consensus_summary`. -/
structure RatingCounts where
  buy : ℕ
  hold : ℕ
  sell : ℕ
deriving DecidableEq, Repr

/-- `rating_counts[report.rating_norm.value] += 1`. -/
def RatingCounts.incr (c : RatingCounts) : RatingEnum → RatingCounts
  | RatingEnum.buy => { c with buy := c.buy + 1 }
  | RatingEnum.hold => { c with hold := c.hold + 1 }
  | RatingEnum.sell => { c with sell := c.sell + 1 }

/-- Round to the nearest integer, halves to the even neighbour
(the rounding mode of Python's builtin `round`). -/
def roundHalfEven (q : ℚ) : ℤ :=
  let n := ⌊q⌋
  if q - (n : ℚ) < 1 / 2 then n
  else if 1 / 2 < q - (n : ℚ) then n + 1
  else if n % 2 = 0 then n else n + 1

/-- Python's `round(x, 2)`, idealised over `ℚ`. -/
def pyRound2 (q : ℚ) : ℚ := (roundHalfEven (q * 100) : ℚ) / 100

/-- The success payload of `get_consensus_summary` (the returned dict). -/
structure ConsensusSummary where
  stock_code : String
  total_reports : ℕ
  rating_distribution : RatingCounts
  average_target_price : ℚ
  latest_report_date : Option ℕ
  report_count : ℕ
deriving DecidableEq, Repr

/-- `get_consensus_summary` either reports that no rows exist for the code
(the `{'error': ...}` dict, which carries the stock code in its message) or
returns the aggregate dict. -/
inductive SummaryResult
  | notFound (stock_code : String)
  | ok (summary : ConsensusSummary)
deriving DecidableEq, Repr

/-- The single aggregation loop of `get_consensus_summary`
(data_service.py:190-194): tallies counts, collects target prices, and keeps
the running latest date. -/
def summaryLoop :
    List Report → RatingCounts → List ℚ → Option ℕ → RatingCounts × List ℚ × Option ℕ
  | [], counts, prices, latest => (counts, prices, latest)
  | r :: rs, counts, prices, latest =>
      summaryLoop rs (counts.incr r.rating_norm) (prices ++ [r.target_price])
        (match latest with
         | none => some r.report_date
         | some d => if d < r.report_date then some r.report_date else some d)

/-- `DataCollectionService.get_consensus_summary` (data_service.py:174-206),
as a pure function of the stored rows.  The `reports.isEmpty` branch models
the `if not reports` early return. -/
def get_consensus_summary (reports_db : List Report) (stock_code : String) :
    SummaryResult :=
  let reports := reports_db.filter (fun r => r.stock_code == stock_code)
  if reports.isEmpty then SummaryResult.notFound stock_code
  else
    let acc := summaryLoop reports ⟨0, 0, 0⟩ [] none
    let avg : ℚ :=
      if acc.2.1.length = 0 then 0
      else acc.2.1.foldl (· + ·) 0 / (acc.2.1.length : ℚ)
    SummaryResult.ok
      { stock_code := stock_code
        total_reports := reports.length
        rating_distribution := acc.1
        average_target_price := pyRound2 avg
        latest_report_date := acc.2.2
        report_count := reports.length }

/-- Concrete store for the C2 counterexample: three hold-rated reports for
security "X" with target prices 0, 0 and 1, so the true mean is 1/3. -/
def reportsThirds : List Report :=
  [ { id := 1, stock_code := "X", security_firm := "A", rating_raw := [],
      rating_norm := RatingEnum.hold, target_price := 0, report_date := 1 },
    { id := 2, stock_code := "X", security_firm := "B", rating_raw := [],
      rating_norm := RatingEnum.hold, target_price := 0, report_date := 2 },
    { id := 3, stock_code := "X", security_firm := "C", rating_raw := [],
      rating_norm := RatingEnum.hold, target_price := 1, report_date := 3 } ]

/-- The spec's example store: security "005930" with ratings [buy, buy, hold]
and target prices [85000, 90000, 95000]. -/
def reportsSamsung : List Report :=
  [ { id := 1, stock_code := "005930", security_firm := "A", rating_raw := "Buy".toList,
      rating_norm := RatingEnum.buy, target_price := 85000, report_date := 10 },
    { id := 2, stock_code := "005930", security_firm := "B", rating_raw := "Buy".toList,
      rating_norm := RatingEnum.buy, target_price := 90000, report_date := 11 },
    { id := 3, stock_code := "005930", security_firm := "C", rating_raw := "Hold".toList,
      rating_norm := RatingEnum.hold, target_price := 95000, report_date := 12 } ]

/-- `VectorSearchService.save_embedding` (vector_service.py:71-98), over an
association-list store keyed by report id (pickling is idealised away).
`enc text = none` models an exception raised by `generate_embedding`; the
function's handler turns it into a `false` return with the store unchanged.
On success an existing row for the report id is overwritten in place,
otherwise a new row is inserted. -/
def save_embedding (enc : String → Option (List ℝ)) (store : List (ℕ × List ℝ))
    (report_id : ℕ) (text : String) : List (ℕ × List ℝ) × Bool :=
  match enc text with
  | none => (store, false)
  | some v =>
    match store.find? (fun p => p.1 == report_id) with
    | some _ => (store.map (fun p => if p.1 == report_id then (p.1, v) else p), true)
    | none => (store ++ [(report_id, v)], true)

/-- Dot product of two vectors represented as lists of reals; a trailing
length mismatch contributes 0 (the callers below never rely on that case). -/
noncomputable def dotList : List ℝ → List ℝ → ℝ
  | a :: as, b :: bs => a * b + dotList as bs
  | _, _ => 0

/-- sklearn's `cosine_similarity` of two vectors: dot product divided by the
product of the Euclidean norms.  A zero-norm vector yields similarity 0
(division by zero is 0 in Lean, matching sklearn's zero-norm convention). -/
noncomputable def cosineSim (a b : List ℝ) : ℝ :=
  dotList a b / (Real.sqrt (dotList a a) * Real.sqrt (dotList b b))

/-- One entry of the result list of `search_similar_reports`
(vector_service.py:135-143). -/
structure SearchMatch where
  report_id : ℕ
  stock_code : String
  security_firm : String
  rating_norm : RatingEnum
  target_price : ℚ
  report_date : ℕ
  similarity_score : ℝ

/-- The ordering used by `similarities.sort(key=..., reverse=True)`:
descending similarity score. -/
def simDesc (a b : SearchMatch) : Prop :=
  b.similarity_score ≤ a.similarity_score

noncomputable instance : DecidableRel simDesc := fun a b =>
  inferInstanceAs (Decidable (b.similarity_score ≤ a.similarity_score))

instance : IsTotal SearchMatch simDesc :=
  ⟨fun a b => le_total b.similarity_score a.similarity_score⟩

instance : IsTrans SearchMatch simDesc :=
  ⟨fun _ _ _ hab hbc => le_trans hbc hab⟩

/-- The scoring-and-filtering loop of `search_similar_reports`
(vector_service.py:126-143): each candidate is scored against the query
embedding and kept when its similarity is at or above the threshold. -/
noncomputable def searchLoop (query_embedding : List ℝ) (similarity_threshold : ℝ) :
    List (List ℝ × Report) → List SearchMatch
  | [] => []
  | (emb, rep) :: rest =>
    let similarity := cosineSim query_embedding emb
    if similarity_threshold ≤ similarity then
      { report_id := rep.id
        stock_code := rep.stock_code
        security_firm := rep.security_firm
        rating_norm := rep.rating_norm
        target_price := rep.target_price
        report_date := rep.report_date
        similarity_score := similarity } ::
        searchLoop query_embedding similarity_threshold rest
    else searchLoop query_embedding similarity_threshold rest

/-- `VectorSearchService.search_similar_reports` (vector_service.py:100-152).
`enc` is the text encoder, `rows` the joined `(embedding, report)` result set
in its scan order.  The two `[]` early returns model the function's blanket
`except` handler: an encoder failure, and the `ValueError` that
`cosine_similarity` raises when a stored vector's length differs from the
query embedding's, both abort the body and the handler returns `[]`.  Python's
`list.sort` is stable, hence the insertion sort. -/
noncomputable def search_similar_reports (enc : String → Option (List ℝ))
    (rows : List (List ℝ × Report)) (query_text : String) (limit : ℕ)
    (similarity_threshold : ℝ) (stock_code : Option String) : List SearchMatch :=
  match enc query_text with
  | none => []
  | some query_embedding =>
    let rows2 :=
      match stock_code with
      | some code => rows.filter (fun p => p.2.stock_code == code)
      | none => rows
    if rows2.any (fun p => p.1.length != query_embedding.length) then []
    else
      (List.insertionSort simDesc
        (searchLoop query_embedding similarity_threshold rows2)).take limit

/-- The `report_data` dict consumed by `save_consensus_report`; the report
date arrives already parsed (`datetime.strptime` is transport plumbing). -/
structure ReportData where
  stock_code : String
  security_firm : String
  rating_raw : List Char
  target_price : ℚ
  report_date : ℕ
  analysis_content : Option String

/-- The persistent state touched by the ingestion path: the
`consensus_reports` rows, the `vector_embeddings` rows, and the autoincrement
counter for report ids. -/
structure DB where
  reports : List Report
  embeddings : List (ℕ × List ℝ)
  nextId : ℕ

/-- The duplicate-check filter of `save_consensus_report`
(data_service.py:93-99): equality of the (stock code, firm, report date)
triple, the unique key `uk_report` of models.py:40. -/
def sameTriple (d : ReportData) (r : Report) : Bool :=
  r.stock_code == d.stock_code && r.security_firm == d.security_firm &&
    r.report_date == d.report_date

/-- `DataCollectionService.save_consensus_report` (data_service.py:88-135):
a duplicate (stock code, firm, date) triple resolves to the existing row's
id with no write; otherwise a new row is inserted and committed, and then an
embedding of the analysis text (when present) is stored best-effort — its
failure cannot undo the already-committed report row. -/
def save_consensus_report (enc : String → Option (List ℝ)) (db : DB)
    (d : ReportData) : DB × Option ℕ :=
  match db.reports.find? (sameTriple d) with
  | some existing => (db, some existing.id)
  | none =>
    let new_report : Report :=
      { id := db.nextId
        stock_code := d.stock_code
        security_firm := d.security_firm
        rating_raw := d.rating_raw
        rating_norm := normalize_rating d.rating_raw
        target_price := d.target_price
        report_date := d.report_date }
    let embeddings2 :=
      match d.analysis_content with
      | some text => (save_embedding enc db.embeddings new_report.id text).1
      | none => db.embeddings
    ({ reports := db.reports ++ [new_report], embeddings := embeddings2,
       nextId := db.nextId + 1 }, some new_report.id)

/-- The per-row normalisation invariant of the ingestion path:
`rating_norm = normalize_rating rating_raw` (data_service.py:110). -/
def RatingInvariant (db : DB) : Prop :=
  ∀ r ∈ db.reports, r.rating_norm = normalize_rating r.rating_raw

/-- States reachable from the fresh database (autoincrement starts at 1)
through the ingestion write path; no other code path mutates the
`consensus_reports` rows. -/
inductive Reachable : DB → Prop
  | empty : Reachable { reports := [], embeddings := [], nextId := 1 }
  | save (enc : String → Option (List ℝ)) (d : ReportData) (db : DB) :
      Reachable db → Reachable (save_consensus_report enc db d).1

/-- Report rows (ids 2 and 1) used by the concrete search examples. -/
def reportTwo : Report :=
  { id := 2, stock_code := "X", security_firm := "B", rating_raw := "Buy".toList,
    rating_norm := RatingEnum.buy, target_price := 1, report_date := 1 }

def reportOne : Report :=
  { id := 1, stock_code := "X", security_firm := "A", rating_raw := "Buy".toList,
    rating_norm := RatingEnum.buy, target_price := 1, report_date := 1 }

/-- Claim C1: `normalize` returns buy whenever the lower-cased input contains a
buy-family keyword; otherwise sell whenever it contains a sell-family keyword;
otherwise hold. In particular a string containing both families yields buy and
the empty string yields hold; the function is total (it is a Lean `def` into
`RatingEnum` with no error path). -/
theorem claim_C1_normalize_rating :
    (∀ raw : List Char,
      (containsAnyKeyword (pyLower raw) buyKeywords = true →
        normalize_rating raw = RatingEnum.buy) ∧
      (containsAnyKeyword (pyLower raw) buyKeywords = false →
        containsAnyKeyword (pyLower raw) sellKeywords = true →
        normalize_rating raw = RatingEnum.sell) ∧
      (containsAnyKeyword (pyLower raw) buyKeywords = false →
        containsAnyKeyword (pyLower raw) sellKeywords = false →
        normalize_rating raw = RatingEnum.hold)) ∧
    normalize_rating [] = RatingEnum.hold := by
  refine ⟨fun raw => ⟨?_, ?_, ?_⟩, by decide⟩ <;>
    · intros
      simp only [normalize_rating]
      simp [*]

/-- Witness for C1: concrete instantiations, including a string that contains
both a buy and a sell keyword (buy wins) and the empty string. -/
theorem claim_C1_witness :
    normalize_rating "Strong Buy".toList = RatingEnum.buy ∧
    normalize_rating "downgraded to SELL".toList = RatingEnum.sell ∧
    normalize_rating "Sell after the Buy run".toList = RatingEnum.buy ∧
    normalize_rating "neutral".toList = RatingEnum.hold ∧
    normalize_rating "".toList = RatingEnum.hold :=
  ⟨(claim_C1_normalize_rating.1 "Strong Buy".toList).1 (by decide),
   (claim_C1_normalize_rating.1 "downgraded to SELL".toList).2.1 (by decide) (by decide),
   (claim_C1_normalize_rating.1 "Sell after the Buy run".toList).1 (by decide),
   (claim_C1_normalize_rating.1 "neutral".toList).2.2 (by decide) (by decide),
   claim_C1_normalize_rating.2⟩

theorem summaryLoop_counts (l : List Report) :
    ∀ (c : RatingCounts) (p : List ℚ) (lt : Option ℕ),
      (summaryLoop l c p lt).1.buy + (summaryLoop l c p lt).1.hold +
          (summaryLoop l c p lt).1.sell
        = c.buy + c.hold + c.sell + l.length := by
  induction l with
  | nil => intro c p lt; simp [summaryLoop]
  | cons r rs ih =>
    intro c p lt
    simp only [summaryLoop, List.length_cons]
    rw [ih]
    cases hr : r.rating_norm <;> simp [RatingCounts.incr] <;> omega

theorem summaryLoop_prices (l : List Report) :
    ∀ (c : RatingCounts) (p : List ℚ) (lt : Option ℕ),
      (summaryLoop l c p lt).2.1 = p ++ l.map Report.target_price := by
  induction l with
  | nil => intro c p lt; simp [summaryLoop]
  | cons r rs ih =>
    intro c p lt
    simp only [summaryLoop, List.map_cons]
    rw [ih]
    simp

theorem summaryLoop_latest_some (l : List Report) :
    ∀ (c : RatingCounts) (p : List ℚ) (d0 : ℕ),
      (summaryLoop l c p (some d0)).2.2
        = some ((l.map Report.report_date).foldl max d0) := by
  induction l with
  | nil => intro c p d0; simp [summaryLoop]
  | cons r rs ih =>
    intro c p d0
    simp only [summaryLoop, List.map_cons, List.foldl_cons]
    rcases Nat.lt_or_ge d0 r.report_date with hlt | hge
    · rw [if_pos hlt, ih]
      have hm : max d0 r.report_date = r.report_date := by omega
      rw [hm]
    · rw [if_neg (by omega), ih]
      have hm : max d0 r.report_date = d0 := by omega
      rw [hm]

theorem foldl_max_mem (l : List ℕ) : ∀ a : ℕ, l.foldl max a = a ∨ l.foldl max a ∈ l := by
  induction l with
  | nil => intro a; left; rfl
  | cons x xs ih =>
    intro a
    rw [List.foldl_cons]
    rcases ih (max a x) with h | h
    · rcases Nat.le_total x a with hx | hx
      · left
        rw [h]
        omega
      · right
        rw [h]
        have hm : max a x = x := by omega
        rw [hm]
        exact List.mem_cons_self x xs
    · right
      exact List.mem_cons_of_mem x h

theorem foldl_max_init_le (l : List ℕ) : ∀ a : ℕ, a ≤ l.foldl max a := by
  induction l with
  | nil => intro a; exact Nat.le_refl a
  | cons x xs ih =>
    intro a
    rw [List.foldl_cons]
    exact le_trans (by omega) (ih (max a x))

theorem foldl_max_le_of_mem (l : List ℕ) : ∀ a : ℕ, ∀ d ∈ l, d ≤ l.foldl max a := by
  induction l with
  | nil => intro a d hd; cases hd
  | cons x xs ih =>
    intro a d hd
    rw [List.foldl_cons]
    rcases List.mem_cons.mp hd with rfl | hd
    · exact le_trans (by omega) (foldl_max_init_le xs (max a d))
    · exact ih (max a x) d hd

/-- Unfolding of `get_consensus_summary` on a security that has at least one
stored report. -/
theorem get_consensus_summary_ok_of_ne (db : List Report) (code : String)
    (h : db.filter (fun r => r.stock_code == code) ≠ []) :
    get_consensus_summary db code =
      SummaryResult.ok
        { stock_code := code
          total_reports := (db.filter (fun r => r.stock_code == code)).length
          rating_distribution :=
            (summaryLoop (db.filter (fun r => r.stock_code == code)) ⟨0, 0, 0⟩ [] none).1
          average_target_price :=
            pyRound2
              (if (summaryLoop (db.filter (fun r => r.stock_code == code))
                      ⟨0, 0, 0⟩ [] none).2.1.length = 0 then 0
               else (summaryLoop (db.filter (fun r => r.stock_code == code))
                      ⟨0, 0, 0⟩ [] none).2.1.foldl (· + ·) 0 /
                 (((summaryLoop (db.filter (fun r => r.stock_code == code))
                      ⟨0, 0, 0⟩ [] none).2.1.length : ℚ)))
          latest_report_date :=
            (summaryLoop (db.filter (fun r => r.stock_code == code)) ⟨0, 0, 0⟩ [] none).2.2
          report_count := (db.filter (fun r => r.stock_code == code)).length } := by
  have hne : (db.filter (fun r => r.stock_code == code)).isEmpty = false := by
    obtain ⟨r0, rs, hcons⟩ := List.exists_cons_of_ne_nil h
    rw [hcons]
    rfl
  simp only [get_consensus_summary, hne, Bool.false_eq_true, if_false]

/-- Claim C2 (amended): for a security with at least one stored report,
`get_consensus_summary` returns a summary whose per-rating counts sum to the
total report count, whose mean target price equals the unweighted arithmetic
mean of the target prices rounded to two decimal places (Python's
`round(·, 2)`), and whose latest report date is the maximum stored report
date.  (The original claim omitted the rounding; see the counterexample.) -/
theorem claim_C2_summary (db : List Report) (code : String)
    (h : db.filter (fun r => r.stock_code == code) ≠ []) :
    ∃ view, get_consensus_summary db code = SummaryResult.ok view ∧
      view.rating_distribution.buy + view.rating_distribution.hold +
          view.rating_distribution.sell = view.total_reports ∧
      view.total_reports = (db.filter (fun r => r.stock_code == code)).length ∧
      view.average_target_price =
        pyRound2
          (((db.filter (fun r => r.stock_code == code)).map Report.target_price).foldl
              (· + ·) 0 /
            (((db.filter (fun r => r.stock_code == code)).length : ℚ))) ∧
      ∃ m, view.latest_report_date = some m ∧
        m ∈ (db.filter (fun r => r.stock_code == code)).map Report.report_date ∧
        ∀ d ∈ (db.filter (fun r => r.stock_code == code)).map Report.report_date, d ≤ m := by
  set reports := db.filter (fun r => r.stock_code == code) with hreports
  obtain ⟨r0, rs, hcons⟩ := List.exists_cons_of_ne_nil h
  have hne : reports.isEmpty = false := by
    rw [hcons]
    rfl
  have hget : get_consensus_summary db code =
      SummaryResult.ok
        { stock_code := code
          total_reports := reports.length
          rating_distribution := (summaryLoop reports ⟨0, 0, 0⟩ [] none).1
          average_target_price :=
            pyRound2
              (if (summaryLoop reports ⟨0, 0, 0⟩ [] none).2.1.length = 0 then 0
               else (summaryLoop reports ⟨0, 0, 0⟩ [] none).2.1.foldl (· + ·) 0 /
                 ((summaryLoop reports ⟨0, 0, 0⟩ [] none).2.1.length : ℚ))
          latest_report_date := (summaryLoop reports ⟨0, 0, 0⟩ [] none).2.2
          report_count := reports.length } :=
    get_consensus_summary_ok_of_ne db code h
  refine ⟨_, hget, ?_, ?_, ?_, ?_⟩
  · have := summaryLoop_counts reports ⟨0, 0, 0⟩ [] none
    simpa using this
  · rfl
  · have hp := summaryLoop_prices reports ⟨0, 0, 0⟩ [] none
    have hmne : (reports.map Report.target_price).length ≠ 0 := by
      rw [List.length_map, hcons]
      simp
    simp only [hp, List.nil_append]
    rw [if_neg hmne, List.length_map]
  · show ∃ m, (summaryLoop reports ⟨0, 0, 0⟩ [] none).2.2 = some m ∧
        m ∈ reports.map Report.report_date ∧
        ∀ d ∈ reports.map Report.report_date, d ≤ m
    rw [hcons]
    simp only [summaryLoop]
    rw [summaryLoop_latest_some]
    refine ⟨_, rfl, ?_, ?_⟩
    · rcases foldl_max_mem (rs.map Report.report_date) r0.report_date with hm | hm
      · rw [hm]
        simp
      · simp only [List.map_cons, List.mem_cons]
        right
        exact hm
    · intro d hd
      rcases List.mem_cons.mp hd with rfl | hd
      · exact foldl_max_init_le _ _
      · exact foldl_max_le_of_mem _ _ _ hd

/-- Counterexample to C2 as stated: with target prices 0, 0 and 1 the code
returns an average target price of 0.33 (`round(avg, 2)` in
data_service.py:203), which differs from the exact arithmetic mean 1/3. -/
theorem claim_C2_counterexample :
    get_consensus_summary reportsThirds "X" =
      SummaryResult.ok
        { stock_code := "X"
          total_reports := 3
          rating_distribution := ⟨0, 3, 0⟩
          average_target_price := 33 / 100
          latest_report_date := some 3
          report_count := 3 } ∧
    (33 : ℚ) / 100 ≠ ((0 : ℚ) + 0 + 1) / 3 := by
  constructor
  · have h2 : pyRound2 ((1 : ℚ) / 3) = 33 / 100 := by
      have h : ⌊((1 : ℚ) / 3) * 100⌋ = 33 := by
        rw [Int.floor_eq_iff]
        norm_num
      simp only [pyRound2, roundHalfEven, h]
      norm_num
    simp only [get_consensus_summary, reportsThirds, List.filter, summaryLoop,
      RatingCounts.incr]
    norm_num [h2]
  · norm_num

/-- Witness for C2: the spec's example store (security "005930", ratings
[buy, buy, hold], prices [85000, 90000, 95000]) yields distribution
{buy 2, hold 1, sell 0}, mean target price 90000 and latest date 12. -/
theorem claim_C2_witness :
    (∃ view, get_consensus_summary reportsSamsung "005930" = SummaryResult.ok view ∧
      view.rating_distribution.buy + view.rating_distribution.hold +
          view.rating_distribution.sell = view.total_reports ∧
      view.total_reports =
        (reportsSamsung.filter (fun r => r.stock_code == "005930")).length ∧
      view.average_target_price =
        pyRound2
          (((reportsSamsung.filter (fun r => r.stock_code == "005930")).map
                Report.target_price).foldl (· + ·) 0 /
            (((reportsSamsung.filter (fun r => r.stock_code == "005930")).length : ℚ))) ∧
      ∃ m, view.latest_report_date = some m ∧
        m ∈ (reportsSamsung.filter (fun r => r.stock_code == "005930")).map
              Report.report_date ∧
        ∀ d ∈ (reportsSamsung.filter (fun r => r.stock_code == "005930")).map
              Report.report_date, d ≤ m) ∧
    get_consensus_summary reportsSamsung "005930" =
      SummaryResult.ok
        { stock_code := "005930"
          total_reports := 3
          rating_distribution := ⟨2, 1, 0⟩
          average_target_price := 90000
          latest_report_date := some 12
          report_count := 3 } := by
  constructor
  · exact claim_C2_summary reportsSamsung "005930" (by simp [reportsSamsung])
  · have h2 : pyRound2 ((90000 : ℚ)) = 90000 := by
      have h : ⌊(90000 : ℚ) * 100⌋ = 9000000 := by
        rw [Int.floor_eq_iff]
        norm_num
      simp only [pyRound2, roundHalfEven, h]
      norm_num
    simp only [get_consensus_summary, reportsSamsung, List.filter, summaryLoop,
      RatingCounts.incr]
    norm_num [h2]

/-- Claim C5: a security with zero stored reports yields an explicit
`notFound` result carrying the security code rather than an exception, a
security with reports yields an `ok` aggregate, and the two are always
distinguishable. -/
theorem claim_C5_not_found (db : List Report) (code : String) :
    (db.filter (fun r => r.stock_code == code) = [] →
      get_consensus_summary db code = SummaryResult.notFound code) ∧
    (db.filter (fun r => r.stock_code == code) ≠ [] →
      ∃ view, get_consensus_summary db code = SummaryResult.ok view) ∧
    ∀ view : ConsensusSummary, SummaryResult.notFound code ≠ SummaryResult.ok view := by
  refine ⟨?_, ?_, ?_⟩
  · intro hempty
    simp [get_consensus_summary, hempty]
  · intro hne
    exact ⟨_, get_consensus_summary_ok_of_ne db code hne⟩
  · intro view hcontra
    exact SummaryResult.noConfusion hcontra

/-- Witness for C5: the empty store yields `notFound "005930"`, which differs
from every `ok` aggregate; a store that does contain reports for "005930"
yields an `ok` aggregate. -/
theorem claim_C5_witness :
    get_consensus_summary [] "005930" = SummaryResult.notFound "005930" ∧
    (∃ view, get_consensus_summary reportsSamsung "005930" = SummaryResult.ok view) ∧
    ∀ view : ConsensusSummary,
      SummaryResult.notFound "005930" ≠ SummaryResult.ok view :=
  ⟨(claim_C5_not_found [] "005930").1 rfl,
   (claim_C5_not_found reportsSamsung "005930").2.1 (by simp [reportsSamsung]),
   (claim_C5_not_found reportsSamsung "005930").2.2⟩

/-- Claim C6: ingesting a report whose (stock code, firm, date) triple is
already stored resolves to the existing row's id without touching the state,
and ingesting the same data twice yields the same id the second time with the
state of the first call left unchanged (idempotence of the write). -/
theorem claim_C6_idempotent (enc : String → Option (List ℝ)) (db : DB)
    (d : ReportData) :
    (∀ r : Report, db.reports.find? (sameTriple d) = some r →
      save_consensus_report enc db d = (db, some r.id)) ∧
    save_consensus_report enc (save_consensus_report enc db d).1 d
      = ((save_consensus_report enc db d).1, (save_consensus_report enc db d).2) := by
  constructor
  · intro r hr
    simp [save_consensus_report, hr]
  · cases hfind : db.reports.find? (sameTriple d) with
    | some existing => simp [save_consensus_report, hfind]
    | none =>
      have hst : ∀ (x : ℕ), sameTriple d
          { id := x, stock_code := d.stock_code, security_firm := d.security_firm,
            rating_raw := d.rating_raw, rating_norm := normalize_rating d.rating_raw,
            target_price := d.target_price, report_date := d.report_date } = true := by
        intro x
        simp [sameTriple]
      simp [save_consensus_report, hfind, List.find?_append, hst]

/-- Witness for C6: a store already holding the ("X", "A", day 1) report;
re-ingesting the same triple returns the stored id 1 and changes nothing. -/
theorem claim_C6_witness :
    save_consensus_report (fun _ => some [1])
        { reports := [reportOne], embeddings := [], nextId := 5 }
        { stock_code := "X", security_firm := "A", rating_raw := "Buy".toList,
          target_price := 1, report_date := 1, analysis_content := none }
      = ({ reports := [reportOne], embeddings := [], nextId := 5 }, some 1) :=
  (claim_C6_idempotent (fun _ => some [1])
      { reports := [reportOne], embeddings := [], nextId := 5 }
      { stock_code := "X", security_firm := "A", rating_raw := "Buy".toList,
        target_price := 1, report_date := 1, analysis_content := none }).1
    reportOne rfl

theorem find?_map_overwrite (report_id : ℕ) (v : List ℝ) :
    ∀ store : List (ℕ × List ℝ),
      (∃ p0, store.find? (fun p => p.1 == report_id) = some p0) →
      (store.map (fun p => if p.1 == report_id then (p.1, v) else p)).find?
          (fun p => p.1 == report_id) = some (report_id, v) := by
  intro store
  induction store with
  | nil =>
    rintro ⟨p0, hp0⟩
    simp at hp0
  | cons q qs ih =>
    rintro ⟨p0, hp0⟩
    by_cases hq : (q.1 == report_id) = true
    · have hq1 : q.1 = report_id := by simpa using hq
      simp [List.find?_cons, hq, hq1]
    · have hqf : (q.1 == report_id) = false := by simpa using hq
      simp only [List.find?_cons, hqf] at hp0
      have ihr := ih ⟨p0, hp0⟩
      simp only [List.map_cons, hqf, Bool.false_eq_true, if_false, List.find?_cons]
      exact ihr

/-- Claim C9: embedding creation is best-effort — when the encoder fails the
already-inserted report row is kept, its id is returned, and the embedding
store is untouched; and re-deriving an embedding for a report id already in
the store overwrites the stored vector in place instead of adding a second
row. -/
theorem claim_C9_best_effort (db : DB) (d : ReportData)
    (store : List (ℕ × List ℝ)) (enc : String → Option (List ℝ))
    (report_id : ℕ) (text : String) (v : List ℝ) (p0 : ℕ × List ℝ) :
    (db.reports.find? (sameTriple d) = none →
      (save_consensus_report (fun _ => none) db d).1.reports
          = db.reports ++
            [{ id := db.nextId, stock_code := d.stock_code,
               security_firm := d.security_firm, rating_raw := d.rating_raw,
               rating_norm := normalize_rating d.rating_raw,
               target_price := d.target_price, report_date := d.report_date }] ∧
      (save_consensus_report (fun _ => none) db d).2 = some db.nextId ∧
      (save_consensus_report (fun _ => none) db d).1.embeddings = db.embeddings) ∧
    (enc text = some v → store.find? (fun p => p.1 == report_id) = some p0 →
      (save_embedding enc store report_id text).1.length = store.length ∧
      (save_embedding enc store report_id text).1.find? (fun p => p.1 == report_id)
          = some (report_id, v) ∧
      (save_embedding enc store report_id text).2 = true) := by
  constructor
  · intro hfind
    cases hac : d.analysis_content with
    | none => simp [save_consensus_report, hfind, hac]
    | some text2 => simp [save_consensus_report, save_embedding, hfind, hac]
  · intro henc hfound
    rw [save_embedding, henc]
    simp only [hfound]
    exact ⟨by simp, find?_map_overwrite report_id v store ⟨p0, hfound⟩, by simp⟩

/-- Witness for C9: a fresh one-row database whose embedding write fails
keeps the report; and overwriting the stored vector for report id 5. -/
theorem claim_C9_witness :
    ((save_consensus_report (fun _ => none)
        { reports := [], embeddings := [(5, [0])], nextId := 1 }
        { stock_code := "X", security_firm := "A", rating_raw := "Buy".toList,
          target_price := 1, report_date := 1,
          analysis_content := some "text" }).1.reports
      = [{ id := 1, stock_code := "X", security_firm := "A",
           rating_raw := "Buy".toList,
           rating_norm := normalize_rating "Buy".toList, target_price := 1,
           report_date := 1 }] ∧
     (save_consensus_report (fun _ => none)
        { reports := [], embeddings := [(5, [0])], nextId := 1 }
        { stock_code := "X", security_firm := "A", rating_raw := "Buy".toList,
          target_price := 1, report_date := 1,
          analysis_content := some "text" }).2 = some 1 ∧
     (save_consensus_report (fun _ => none)
        { reports := [], embeddings := [(5, [0])], nextId := 1 }
        { stock_code := "X", security_firm := "A", rating_raw := "Buy".toList,
          target_price := 1, report_date := 1,
          analysis_content := some "text" }).1.embeddings = [(5, [0])]) ∧
    ((save_embedding (fun _ => some [1]) [(5, [0])] 5 "text").1.length = 1 ∧
     (save_embedding (fun _ => some [1]) [(5, [0])] 5 "text").1.find?
         (fun p => p.1 == 5) = some (5, [1]) ∧
     (save_embedding (fun _ => some [1]) [(5, [0])] 5 "text").2 = true) := by
  constructor
  · exact (claim_C9_best_effort
      { reports := [], embeddings := [(5, [0])], nextId := 1 }
      { stock_code := "X", security_firm := "A", rating_raw := "Buy".toList,
        target_price := 1, report_date := 1, analysis_content := some "text" }
      [(5, [0])] (fun _ => none) 5 "text" [1] (5, [0])).1 rfl
  · exact (claim_C9_best_effort
      { reports := [], embeddings := [(5, [0])], nextId := 1 }
      { stock_code := "X", security_firm := "A", rating_raw := "Buy".toList,
        target_price := 1, report_date := 1, analysis_content := some "text" }
      [(5, [0])] (fun _ => some [1]) 5 "text" [1] (5, [0])).2 rfl rfl

/-- Claim C10: every report row in any state reachable through the ingestion
path satisfies `rating_norm = normalize_rating rating_raw`; rows are never
modified after insertion, so the relation holds at all times. -/
theorem claim_C10_rating_invariant (db : DB) (h : Reachable db) :
    RatingInvariant db := by
  induction h with
  | empty =>
    intro r hr
    cases hr
  | save enc d db0 h0 ih =>
    intro r hr
    cases hfind : db0.reports.find? (sameTriple d) with
    | some existing =>
      refine ih r ?_
      simpa [save_consensus_report, hfind] using hr
    | none =>
      have hmem : r ∈ db0.reports ++
          [{ id := db0.nextId, stock_code := d.stock_code,
             security_firm := d.security_firm, rating_raw := d.rating_raw,
             rating_norm := normalize_rating d.rating_raw,
             target_price := d.target_price, report_date := d.report_date }] := by
        simpa [save_consensus_report, hfind] using hr
      rcases List.mem_append.mp hmem with hmem2 | hmem2
      · exact ih r hmem2
      · rw [List.mem_singleton.mp hmem2]

/-- Witness for C10: the invariant holds of the empty database and of the
database obtained by one concrete ingestion. -/
theorem claim_C10_witness :
    RatingInvariant { reports := [], embeddings := [], nextId := 1 } ∧
    RatingInvariant
      (save_consensus_report (fun _ => none)
        { reports := [], embeddings := [], nextId := 1 }
        { stock_code := "X", security_firm := "A", rating_raw := "Buy".toList,
          target_price := 1, report_date := 1, analysis_content := none }).1 :=
  ⟨claim_C10_rating_invariant _ Reachable.empty,
   claim_C10_rating_invariant _
     (Reachable.save (fun _ => none)
       { stock_code := "X", security_firm := "A", rating_raw := "Buy".toList,
         target_price := 1, report_date := 1, analysis_content := none }
       _ Reachable.empty)⟩

theorem searchLoop_mem_le (query_embedding : List ℝ) (similarity_threshold : ℝ) :
    ∀ rows : List (List ℝ × Report), ∀ m ∈ searchLoop query_embedding similarity_threshold rows,
      similarity_threshold ≤ m.similarity_score := by
  intro rows
  induction rows with
  | nil =>
    intro m hm
    cases hm
  | cons row rest ih =>
    intro m hm
    obtain ⟨emb, rep⟩ := row
    by_cases hkeep : similarity_threshold ≤ cosineSim query_embedding emb
    · rw [searchLoop, if_pos hkeep] at hm
      rcases List.mem_cons.mp hm with rfl | hm2
      · exact hkeep
      · exact ih m hm2
    · rw [searchLoop, if_neg hkeep] at hm
      exact ih m hm

theorem cosineSim_single_single (a b : ℝ) :
    cosineSim [a] [b] = a * b / (Real.sqrt (a * a) * Real.sqrt (b * b)) := by
  simp [cosineSim, dotList]

/-- Claim C4: no returned match scores strictly below the threshold, the
result has at most `limit` entries, and a query whose only candidate scores
below the threshold (best match -1 against threshold 0.9) yields the empty
list, not an error. -/
theorem claim_C4_threshold_limit :
    (∀ (enc : String → Option (List ℝ)) (rows : List (List ℝ × Report))
        (q : String) (limit : ℕ) (thr : ℝ) (code : Option String),
      (search_similar_reports enc rows q limit thr code).Forall
          (fun m => thr ≤ m.similarity_score) ∧
      (search_similar_reports enc rows q limit thr code).length ≤ limit) ∧
    search_similar_reports (fun _ => some [1]) [([-1], reportOne)] "q" 10 (9 / 10)
        none = [] := by
  constructor
  · intro enc rows q limit thr code
    rw [search_similar_reports.eq_def]
    cases enc q with
    | none => exact ⟨trivial, Nat.zero_le _⟩
    | some qe =>
      simp only []
      by_cases hmis :
          (((match code with
            | some c => rows.filter (fun p => p.2.stock_code == c)
            | none => rows : List (List ℝ × Report))).any
              (fun p => p.1.length != qe.length)) = true
      · rw [if_pos hmis]
        exact ⟨trivial, Nat.zero_le _⟩
      · rw [if_neg hmis]
        constructor
        · rw [List.forall_iff_forall_mem]
          intro m hm
          have hm2 := List.take_subset _ _ hm
          have hm3 := (List.mem_insertionSort simDesc).mp hm2
          exact searchLoop_mem_le qe thr _ m hm3
        · rw [List.length_take]
          exact min_le_left _ _
  · have hsim : cosineSim [(1 : ℝ)] [(-1 : ℝ)] = -1 := by
      rw [cosineSim_single_single]
      norm_num [Real.sqrt_one]
    rw [search_similar_reports]
    simp only [searchLoop, hsim]
    rw [if_neg (by norm_num), if_neg (by norm_num)]
    simp [searchLoop]

/-- `simDesc`-stability of the insertion sort on one `orderedInsert`:
elements of any fixed similarity score keep their relative order, the
inserted element going in front of its equals' tail only when strictly
greater elements precede it. -/
theorem filter_orderedInsert_simDesc (x : SearchMatch) (s : ℝ) :
    ∀ l : List SearchMatch,
      (l.orderedInsert simDesc x).filter (fun m => decide (m.similarity_score = s))
        = if x.similarity_score = s
          then x :: l.filter (fun m => decide (m.similarity_score = s))
          else l.filter (fun m => decide (m.similarity_score = s)) := by
  intro l
  induction l with
  | nil =>
    by_cases hxs : x.similarity_score = s
    · simp [List.orderedInsert, hxs]
    · simp [List.orderedInsert, hxs]
  | cons y ys ih =>
    by_cases hxy : simDesc x y
    · rw [List.orderedInsert, if_pos hxy]
      by_cases hxs : x.similarity_score = s
      · simp [List.filter_cons, hxs]
      · simp [List.filter_cons, hxs]
    · rw [List.orderedInsert, if_neg hxy]
      have hlt : x.similarity_score < y.similarity_score := by
        simp only [simDesc, not_le] at hxy
        exact hxy
      by_cases hys : y.similarity_score = s
      · have hxs : ¬ x.similarity_score = s := by
          intro hxs
          rw [hxs, hys] at hlt
          exact lt_irrefl s hlt
        simp [List.filter_cons, hys, hxs, ih]
      · simp [List.filter_cons, hys, ih]

/-- Stability of the full insertion sort: filtering the sorted list down to
any one similarity score returns those matches in their original order. -/
theorem filter_insertionSort_simDesc (s : ℝ) :
    ∀ l : List SearchMatch,
      (List.insertionSort simDesc l).filter (fun m => decide (m.similarity_score = s))
        = l.filter (fun m => decide (m.similarity_score = s)) := by
  intro l
  induction l with
  | nil => rfl
  | cons x xs ih =>
    rw [List.insertionSort, filter_orderedInsert_simDesc]
    by_cases hxs : x.similarity_score = s
    · rw [if_pos hxs, ih, List.filter_cons, if_pos (by simp [hxs])]
    · rw [if_neg hxs, ih, List.filter_cons, if_neg (by simp [hxs])]

/-- Claim C3 (amended): search results are sorted by similarity score in
non-increasing order, and matches with exactly equal scores appear in the
order their rows were scanned (Python's sort is stable) — not necessarily in
ascending report-identifier order.  The output is a deterministic function of
the scan order. -/
theorem claim_C3_sorted_stable :
    (∀ (enc : String → Option (List ℝ)) (rows : List (List ℝ × Report))
        (q : String) (limit : ℕ) (thr : ℝ) (code : Option String),
      List.Sorted simDesc (search_similar_reports enc rows q limit thr code)) ∧
    (∀ (query_embedding : List ℝ) (thr s : ℝ) (rows : List (List ℝ × Report)),
      (List.insertionSort simDesc (searchLoop query_embedding thr rows)).filter
          (fun m => decide (m.similarity_score = s))
        = (searchLoop query_embedding thr rows).filter
            (fun m => decide (m.similarity_score = s))) := by
  constructor
  · intro enc rows q limit thr code
    rw [search_similar_reports.eq_def]
    cases enc q with
    | none => exact List.sorted_nil
    | some qe =>
      simp only []
      by_cases hmis :
          (((match code with
            | some c => rows.filter (fun p => p.2.stock_code == c)
            | none => rows : List (List ℝ × Report))).any
              (fun p => p.1.length != qe.length)) = true
      · rw [if_pos hmis]
        exact List.sorted_nil
      · rw [if_neg hmis]
        exact List.Pairwise.sublist (List.take_sublist _ _)
          (List.sorted_insertionSort simDesc _)
  · intro query_embedding thr s rows
    exact filter_insertionSort_simDesc s (searchLoop query_embedding thr rows)

/-- Counterexample to the tie-break part of C3: two candidates with identical
similarity 1 are returned in scan order (report id 2 before id 1), not in
ascending identifier order. -/
theorem claim_C3_counterexample :
    (search_similar_reports (fun _ => some [1]) [([1], reportTwo), ([1], reportOne)]
        "q" 10 0 none).map (fun m => (m.report_id, m.similarity_score))
      = [(2, 1), (1, 1)] := by
  have hsim : cosineSim [(1 : ℝ)] [(1 : ℝ)] = 1 := by
    rw [cosineSim_single_single]
    norm_num [Real.sqrt_one]
  rw [search_similar_reports]
  simp only [searchLoop, hsim]
  rw [if_neg (by norm_num)]
  simp only [searchLoop, hsim, if_pos (by norm_num : (0 : ℝ) ≤ 1)]
  simp [List.insertionSort, List.orderedInsert, simDesc, reportTwo, reportOne, hsim]

/-- Claim C7 (amended): an encoder failure makes `save_embedding` return
`false` with the store untouched, and makes `search_similar_reports` return
the empty list — the very value a successful search over an empty store
returns, so the failure is swallowed rather than surfaced. -/
theorem claim_C7_encoder_failure :
    (∀ (store : List (ℕ × List ℝ)) (report_id : ℕ) (text : String),
      save_embedding (fun _ => none) store report_id text = (store, false)) ∧
    (∀ (rows : List (List ℝ × Report)) (q : String) (limit : ℕ) (thr : ℝ)
        (code : Option String),
      search_similar_reports (fun _ => none) rows q limit thr code = []) ∧
    search_similar_reports (fun _ => none) [([1], reportOne)] "q" 10 0 none
      = search_similar_reports (fun _ => some [1]) [] "q" 10 0 none := by
  refine ⟨fun store report_id text => rfl, fun rows q limit thr code => rfl, ?_⟩
  rw [search_similar_reports, search_similar_reports]
  simp [searchLoop]

/-- Counterexample to C7 as stated: the store holds a report whose vector
matches the query exactly, yet an encoder failure makes the search return a
plain empty list (a degraded empty success) instead of surfacing the
failure. -/
theorem claim_C7_counterexample :
    search_similar_reports (fun _ => none) [([1], reportOne)] "q" 10 0 none = [] :=
  rfl

/-- Claim C8 (amended): a stored vector whose length differs from the query
embedding's dimension makes the similarity step raise, and the blanket
handler turns the whole search into an empty result list: the vector is never
truncated or padded and no match is computed from it, but the failure is not
propagated to the caller. -/
theorem claim_C8_dimension_mismatch (enc : String → Option (List ℝ))
    (rows : List (List ℝ × Report)) (q : String) (limit : ℕ) (thr : ℝ)
    (qe : List ℝ) (henc : enc q = some qe)
    (hmis : rows.any (fun p => p.1.length != qe.length) = true) :
    search_similar_reports enc rows q limit thr none = [] := by
  rw [search_similar_reports, henc]
  simp only [hmis]
  rfl

/-- Witness for C8: query dimension 1 against a store containing a 2-entry
vector. -/
theorem claim_C8_witness :
    search_similar_reports (fun _ => some [1]) [([1], reportTwo), ([1, 0], reportOne)]
        "q" 10 0 none = [] :=
  claim_C8_dimension_mismatch (fun _ => some [1])
    [([1], reportTwo), ([1, 0], reportOne)] "q" 10 0 [1] rfl rfl

/-- Counterexample to C8 as stated: the first candidate matches the query
perfectly (similarity 1) yet the corrupted second vector makes the search
return `[]` — a normal, non-error result — rather than failing fatally. -/
theorem claim_C8_counterexample :
    search_similar_reports (fun _ => some [1]) [([1], reportTwo), ([1, 0], reportOne)]
        "q" 10 0 none = [] := by
  rw [search_similar_reports]
  rfl

end Fins
